import Mathlib

/-!
Verification of the Data Stream Monitoring (DSM) pathway-tracking engine of
dd-trace-py, shallowly embedded from `ddtrace/internal/datastreams/processor.py`.

Byte strings are `List Nat` (each element a byte value), 64-bit values are
`Nat` taken modulo `2 ^ 64` where the code wraps, wall-clock seconds are `ℚ`
(the float arithmetic of the source is exact on all the quantities the claims
speak about, up to the millisecond truncation the spec itself allows), and
fallible Python code returns `Except PyErr`, with one error constructor per
exception class the source can raise or catch.
-/

namespace DSM

/-- Python `int(x)` applied to a (rational-valued) float: truncation toward
zero, computed as the truncating division of numerator by denominator. -/
def pyInt (q : ℚ) : Int :=
  q.num.tdiv q.den

/-- UTF-8 encoding of a string, as Python `bytes(s, encoding="utf-8")`. -/
def utf8Bytes (s : String) : List Nat :=
  (s.data.flatMap String.utf8EncodeChar).map UInt8.toNat

/-- Modelled from the spec: `fnv1_64` lives in
`ddtrace/internal/datastreams/fnv.py`, which is not part of the sources under
review; the spec fixes it completely: FNV-1 64-bit, offset basis
`0xcbf29ce484222325`, prime `0x100000001b3`, multiply-then-xor per byte
(FNV-1, not FNV-1a). -/
def fnv1_64 (bs : List Nat) : Nat :=
  bs.foldl (fun h b => ((h * 0x100000001b3) % 2 ^ 64) ^^^ b) 0xcbf29ce484222325

/-- Little-endian 8-byte encoding of a 64-bit value: `struct.pack("<Q", n)`. -/
def leBytes64 (n : Nat) : List Nat :=
  [n % 256, n / 2 ^ 8 % 256, n / 2 ^ 16 % 256, n / 2 ^ 24 % 256,
   n / 2 ^ 32 % 256, n / 2 ^ 40 % 256, n / 2 ^ 48 % 256, n / 2 ^ 56 % 256]

/-- Little-endian read of a list of bytes, least significant first:
the value `struct.unpack("<Q", bs)[0]` computes when `bs` has 8 bytes. -/
def leValue : List Nat → Nat
  | [] => 0
  | b :: rest => b + 256 * leValue rest

/-- Modelled from the spec: `encode_var_int_64` lives in
`ddtrace/internal/datastreams/encoding.py`, not part of the sources under
review. The spec: base-128 continuation-bit encoding, MSB of each byte means
"more bytes follow"; groups are little-endian (least significant first), the
standard varint layout. -/
def encodeVarInt64 (n : Nat) : List Nat :=
  if h : n < 128 then [n]
  else (n % 128 + 128) :: encodeVarInt64 (n / 128)
decreasing_by exact Nat.div_lt_self (by omega) (by omega)

/-- Modelled from the spec: `decode_var_int_64`, the inverse reader; raises
`EOFError` when the buffer ends while a continuation bit is still set
(truncated or malformed varint). Returns the value and the unconsumed tail. -/
def decodeVarInt64Aux : List Nat → Nat → Nat → Option (Nat × List Nat)
  | [], _, _ => none
  | b :: rest, shift, acc =>
    if b < 128 then some (acc + b * 2 ^ shift, rest)
    else decodeVarInt64Aux rest (shift + 7) (acc + b % 128 * 2 ^ shift)

/-- Entry point of the varint reader. `none` stands for `EOFError`. -/
def decodeVarInt64 (bs : List Nat) : Option (Nat × List Nat) :=
  decodeVarInt64Aux bs 0 0

/-- Node-bytes-then-parent checkpoint hash, embedded from
`DataStreamsCtx._compute_hash` (processor.py:434-442): FNV-1 over
`utf8(service) + utf8(env) + utf8(tag) for each tag`, then FNV-1 over the
little-endian 8-byte encodings of that node hash and the parent hash. -/
def computeHash (service env : String) (tags : List String) (parentHash : Nat) : Nat :=
  let b := tags.foldl (fun acc t => acc ++ utf8Bytes t) (utf8Bytes service ++ utf8Bytes env)
  let nodeHash := fnv1_64 b
  fnv1_64 (leBytes64 nodeHash ++ leBytes64 parentHash)

/-- FNV-1 64-bit written independently from the spec's own words
(section 4.1): start from the offset basis and, for each byte, first multiply
by the prime modulo `2 ^ 64`, then xor the byte in. -/
def fnv1Spec : List Nat → Nat → Nat
  | [], h => h
  | b :: rest, h => fnv1Spec rest (h * 0x100000001b3 % 2 ^ 64 ^^^ b)

/-- Little-endian 8-byte encoding written independently from the spec's words. -/
def leBytes64Spec (n : Nat) : List Nat :=
  (List.range 8).map fun i => n / 2 ^ (8 * i) % 256

/-- Checkpoint hash exactly as the spec's section 4.1 words it:
`nodeBytes = utf8(service) + utf8(env) + concat(utf8(tag))`,
`nodeHash = fnv1_64(nodeBytes)`,
`result = fnv1_64(le_bytes64(nodeHash) + le_bytes64(parentHash))`. -/
def checkpointHashSpec (service env : String) (tags : List String) (parentHash : Nat) : Nat :=
  let nodeBytes := utf8Bytes service ++ utf8Bytes env ++ (tags.map utf8Bytes).flatten
  let nodeHash := fnv1Spec nodeBytes 0xcbf29ce484222325
  fnv1Spec (leBytes64Spec nodeHash ++ leBytes64Spec parentHash) 0xcbf29ce484222325

lemma fnv1Spec_eq_foldl (bs : List Nat) (h : Nat) :
    fnv1Spec bs h = bs.foldl (fun a b => a * 0x100000001b3 % 2 ^ 64 ^^^ b) h := by
  induction bs generalizing h with
  | nil => rfl
  | cons b rest ih => simp [fnv1Spec, List.foldl_cons, ih]

lemma fnv1_64_eq_spec (bs : List Nat) : fnv1_64 bs = fnv1Spec bs 0xcbf29ce484222325 := by
  rw [fnv1_64, fnv1Spec_eq_foldl]

lemma leBytes64_eq_spec (n : Nat) : leBytes64 n = leBytes64Spec n := by
  simp [leBytes64, leBytes64Spec, List.range_succ]

lemma foldl_append_utf8 (tags : List String) (init : List Nat) :
    tags.foldl (fun acc t => acc ++ utf8Bytes t) init = init ++ (tags.map utf8Bytes).flatten := by
  induction tags generalizing init with
  | nil => simp
  | cons t rest ih => simp [List.foldl_cons, ih]

/-- Claim C1: for every service string, environment string, tag list and
64-bit parent hash, `DataStreamsCtx._compute_hash` computes exactly the
two-stage FNV-1 chain the spec describes: FNV-1 64-bit (offset basis
`0xcbf29ce484222325`, prime `0x100000001b3`, multiply-then-xor per byte) over
`utf8(service) + utf8(env) +` the concatenated utf8 tags, then a second FNV-1
over the little-endian 8-byte encodings of that node hash and of the parent
hash. Both sides are pure functions of their arguments, so equal inputs yield
equal hashes. -/
theorem compute_hash_is_two_stage_fnv1 (service env : String) (tags : List String)
    (parentHash : Nat) (_hp : parentHash < 2 ^ 64) :
    computeHash service env tags parentHash = checkpointHashSpec service env tags parentHash := by
  rw [computeHash, checkpointHashSpec, foldl_append_utf8, fnv1_64_eq_spec, fnv1_64_eq_spec,
    leBytes64_eq_spec, leBytes64_eq_spec, List.append_assoc]

/-- Witness for C1 at a concrete input: parent hash `0` is a 64-bit value and
the source hash agrees with the spec formula there. -/
theorem compute_hash_is_two_stage_fnv1_witness :
    (0 : Nat) < 2 ^ 64 ∧
      computeHash "svc" "env" ["direction:out", "topic:t"] 0 =
        checkpointHashSpec "svc" "env" ["direction:out", "topic:t"] 0 :=
  ⟨by norm_num, compute_hash_is_two_stage_fnv1 "svc" "env" ["direction:out", "topic:t"] 0 (by norm_num)⟩

/-- The Python exception classes the embedded code can raise or catch. -/
inductive PyErr
  | structError
  | eofError
  | typeError
  | binasciiError
deriving DecidableEq

/-- A Python header value: either a `str` or a `bytes` object.  The two are
distinguished because `struct.unpack` raises `TypeError` on a `str` while it
raises `struct.error` on a too-short `bytes`. -/
inductive PyVal
  | str (s : String)
  | bytes (b : List Nat)
deriving DecidableEq

/-- The byte content of a value (`str` values read through their utf-8
encoding, as `data.encode("utf-8")` does). -/
def PyVal.asBytes : PyVal → List Nat
  | .str s => utf8Bytes s
  | .bytes b => b

/-- Modelled from CPython stdlib: the index-to-character table of the
standard base64 alphabet. -/
def b64Char (i : Nat) : Nat :=
  if i < 26 then 65 + i
  else if i < 52 then 97 + (i - 26)
  else if i < 62 then 48 + (i - 52)
  else if i = 62 then 43 else 47

/-- Modelled from CPython stdlib `base64.b64encode`: three input bytes become
four alphabet characters; a trailing group of one or two bytes is padded
with `=` (byte 61). -/
def b64Encode : List Nat → List Nat
  | b1 :: b2 :: b3 :: rest =>
    b64Char (b1 / 4) :: b64Char (b1 % 4 * 16 + b2 / 16) :: b64Char (b2 % 16 * 4 + b3 / 64)
      :: b64Char (b3 % 64) :: b64Encode rest
  | [b1, b2] => [b64Char (b1 / 4), b64Char (b1 % 4 * 16 + b2 / 16), b64Char (b2 % 16 * 4), 61]
  | [b1] => [b64Char (b1 / 4), b64Char (b1 % 4 * 16), 61, 61]
  | [] => []

/-- Whether a byte is a character of the standard base64 alphabet. -/
def isB64Code (b : Nat) : Bool :=
  (65 ≤ b && b ≤ 90) || (97 ≤ b && b ≤ 122) || (48 ≤ b && b ≤ 57) || b == 43 || b == 47

/-- The 6-bit value of a base64 alphabet character. -/
def b64Val (b : Nat) : Nat :=
  if 65 ≤ b ∧ b ≤ 90 then b - 65
  else if 97 ≤ b ∧ b ≤ 122 then b - 71
  else if 48 ≤ b ∧ b ≤ 57 then b + 4
  else if b = 43 then 62 else 63

/-- Data characters of a base64 input: characters outside the alphabet are
discarded and `=` (byte 61) terminates the data, as CPython's lenient
`binascii.a2b_base64` does. -/
def b64DataChars : List Nat → List Nat
  | [] => []
  | b :: rest =>
    if b = 61 then [] else if isB64Code b then b :: b64DataChars rest else b64DataChars rest

/-- Reassemble bytes from base64 data characters: each full group of four
characters yields three bytes, a trailing group of three yields two, of two
yields one. -/
def b64DecodeQuads : List Nat → List Nat
  | c1 :: c2 :: c3 :: c4 :: rest =>
    let v := b64Val c1 * 2 ^ 18 + b64Val c2 * 2 ^ 12 + b64Val c3 * 2 ^ 6 + b64Val c4
    v / 2 ^ 16 :: v / 2 ^ 8 % 256 :: v % 256 :: b64DecodeQuads rest
  | [c1, c2, c3] =>
    let v := b64Val c1 * 2 ^ 12 + b64Val c2 * 2 ^ 6 + b64Val c3
    [v / 2 ^ 10, v / 4 % 256]
  | [c1, c2] => [b64Val c1 * 4 + b64Val c2 / 16]
  | [_] => []
  | [] => []

/-- Modelled from CPython stdlib `base64.b64decode` (default lenient
validation): alphabet-foreign characters are dropped, `=` ends the data, and
`binascii.Error` is raised when the data characters leave one trailing
character, or leave a partial group with no padding present. -/
def b64Decode (bs : List Nat) : Except PyErr (List Nat) :=
  let ds := b64DataChars bs
  if ds.length % 4 = 1 then .error .binasciiError
  else if ds.length % 4 ≠ 0 ∧ ¬ bs.contains 61 then .error .binasciiError
  else .ok (b64DecodeQuads ds)

/-- The pathway context, embedded from `DataStreamsCtx.__init__`
(processor.py:405-417).  `service` and `env` stand for the ambient
configuration values captured at construction. -/
structure DataStreamsCtx where
  service : String
  env : String
  hash : Nat
  pathway_start_sec : ℚ
  current_edge_start_sec : ℚ
  previous_direction : String
  closest_opposite_direction_hash : Nat
  closest_opposite_direction_edge_start : ℚ
deriving DecidableEq

/-- The context `DataStreamsCtx(self, hash_value, ps, es)` builds: loop
state starts empty and the closest-opposite edge start is the current edge
start. -/
def mkCtx (service env : String) (hash_value : Nat) (ps es : ℚ) : DataStreamsCtx :=
  ⟨service, env, hash_value, ps, es, "", 0, es⟩

/-- `DataStreamsProcessor.new_pathway` (processor.py:355-365): a fresh
context with hash 0 and both start times equal to now. -/
def newPathway (service env : String) (now_sec : ℚ) : DataStreamsCtx :=
  mkCtx service env 0 now_sec now_sec

/-- `DataStreamsCtx.encode` (processor.py:419-425): 8-byte little-endian
hash, then the two start times as varints of whole milliseconds
(`int(sec * 1e3)`; the times are non-negative wall-clock readings, so the
truncation lands in `Nat`). -/
def DataStreamsCtx.encode (c : DataStreamsCtx) : List Nat :=
  leBytes64 c.hash ++ encodeVarInt64 (pyInt (c.pathway_start_sec * 1000)).toNat
    ++ encodeVarInt64 (pyInt (c.current_edge_start_sec * 1000)).toNat

/-- `DataStreamsCtx.encode_b64` (processor.py:427-432): the wire bytes,
base64-encoded, read back as an ASCII string. -/
def DataStreamsCtx.encode_b64 (c : DataStreamsCtx) : String :=
  String.mk ((b64Encode c.encode).map Char.ofNat)

/-- The body of `DataStreamsProcessor.decode_pathway` (processor.py:329-337)
before its exception handler, with the exception class each failing step
raises made explicit: `struct.unpack("<Q", data[:8])` raises `struct.error` on a
`bytes` shorter than 8 and `TypeError` on a `str`; the varint reader raises
`EOFError` on truncated input.  The update of the thread-local
`_current_context` is a side effect no claim observes and is not modelled. -/
def decodePathwayBody (service env : String) (v : PyVal) : Except PyErr DataStreamsCtx :=
  match v with
  | .str _ => .error .typeError
  | .bytes data =>
    if data.length < 8 then .error .structError
    else
      match decodeVarInt64 (data.drop 8) with
      | none => .error .eofError
      | some (pathway_start_ms, rest) =>
        match decodeVarInt64 rest with
        | none => .error .eofError
        | some (current_edge_start_ms, _) =>
          .ok (mkCtx service env (leValue (data.take 8)) ((pathway_start_ms : ℚ) / 1000)
            ((current_edge_start_ms : ℚ) / 1000))

/-- `DataStreamsProcessor.decode_pathway` (processor.py:327-339): the body
wrapped in `except (EOFError, TypeError): return self.new_pathway()`.  Any
other exception — notably `struct.error` — propagates to the caller. -/
def decodePathway (service env : String) (now_sec : ℚ) (v : PyVal) : Except PyErr DataStreamsCtx :=
  match decodePathwayBody service env v with
  | .ok c => .ok c
  | .error e =>
    if e = .eofError ∨ e = .typeError then .ok (newPathway service env now_sec) else .error e

/-- `DataStreamsProcessor.decode_pathway_b64` (processor.py:341-353): falsy
input yields a fresh pathway, otherwise the value is base64-decoded (raising
`binascii.Error` on invalid base64) and handed to `decode_pathway`. -/
def decodePathwayB64 (service env : String) (now_sec : ℚ) (v : PyVal) : Except PyErr DataStreamsCtx :=
  if v.asBytes = [] then .ok (newPathway service env now_sec)
  else
    match b64Decode v.asBytes with
    | .error e => .error e
    | .ok raw => decodePathway service env now_sec (.bytes raw)

lemma leValue_leBytes64 (n : Nat) (h : n < 2 ^ 64) : leValue (leBytes64 n) = n := by
  simp only [leBytes64, leValue]
  omega

lemma decodeVarInt64Aux_encode (n : Nat) : ∀ (rest : List Nat) (shift acc : Nat),
    decodeVarInt64Aux (encodeVarInt64 n ++ rest) shift acc = some (acc + n * 2 ^ shift, rest) := by
  induction n using Nat.strong_induction_on with
  | _ n ih =>
    intro rest shift acc
    rw [encodeVarInt64]
    by_cases h : n < 128
    · simp [h, decodeVarInt64Aux]
    · rw [dif_neg h]
      simp only [List.cons_append, decodeVarInt64Aux, List.append_eq]
      rw [if_neg (by omega), show (n % 128 + 128) % 128 = n % 128 from by omega,
        ih (n / 128) (Nat.div_lt_self (by omega) (by omega)) rest (shift + 7) _]
      have key : n % 128 * 2 ^ shift + n / 128 * 2 ^ (shift + 7) = n * 2 ^ shift := by
        calc n % 128 * 2 ^ shift + n / 128 * 2 ^ (shift + 7)
            = (n % 128 + 128 * (n / 128)) * 2 ^ shift := by rw [pow_add]; ring
          _ = n * 2 ^ shift := by rw [Nat.mod_add_div]
      rw [Nat.add_assoc, key]

lemma decodeVarInt64_encode (n : Nat) (rest : List Nat) :
    decodeVarInt64 (encodeVarInt64 n ++ rest) = some (n, rest) := by
  rw [decodeVarInt64, decodeVarInt64Aux_encode]
  simp

lemma pyInt_eq_floor (q : ℚ) (hq : 0 ≤ q) : pyInt q = ⌊q⌋ := by
  rw [pyInt, Int.tdiv_eq_ediv (Rat.num_nonneg.mpr hq) (Int.natCast_nonneg q.den), Rat.floor_def]

lemma msRound (q : ℚ) (hq : 0 ≤ q) :
    0 ≤ q - ((pyInt (q * 1000)).toNat : ℚ) / 1000 ∧
      q - ((pyInt (q * 1000)).toNat : ℚ) / 1000 < 1 / 1000 := by
  have h0 : (0 : ℚ) ≤ q * 1000 := by positivity
  rw [pyInt_eq_floor _ h0]
  have hf0 : (0 : ℤ) ≤ ⌊q * 1000⌋ := Int.floor_nonneg.mpr h0
  have hcast : ((⌊q * 1000⌋.toNat : ℚ)) = ((⌊q * 1000⌋ : ℤ) : ℚ) := by
    exact_mod_cast Int.toNat_of_nonneg hf0
  have hle : ((⌊q * 1000⌋ : ℤ) : ℚ) ≤ q * 1000 := Int.floor_le _
  have hlt : q * 1000 < ((⌊q * 1000⌋ : ℤ) : ℚ) + 1 := Int.lt_floor_add_one _
  rw [hcast]
  constructor <;> [linarith; linarith]

lemma decodeVarInt64_encode_nil (n : Nat) : decodeVarInt64 (encodeVarInt64 n) = some (n, []) := by
  rw [← List.append_nil (encodeVarInt64 n), decodeVarInt64_encode]

lemma decodePathwayBody_encode (c : DataStreamsCtx) (hh : c.hash < 2 ^ 64) :
    decodePathwayBody c.service c.env (.bytes c.encode) =
      .ok (mkCtx c.service c.env c.hash
        (((pyInt (c.pathway_start_sec * 1000)).toNat : ℚ) / 1000)
        (((pyInt (c.current_edge_start_sec * 1000)).toNat : ℚ) / 1000)) := by
  have hlen8 : (leBytes64 c.hash).length = 8 := rfl
  have henc : c.encode = leBytes64 c.hash ++
      (encodeVarInt64 (pyInt (c.pathway_start_sec * 1000)).toNat ++
        encodeVarInt64 (pyInt (c.current_edge_start_sec * 1000)).toNat) := by
    rw [DataStreamsCtx.encode, List.append_assoc]
  have hdrop : c.encode.drop 8 = encodeVarInt64 (pyInt (c.pathway_start_sec * 1000)).toNat ++
      encodeVarInt64 (pyInt (c.current_edge_start_sec * 1000)).toNat := by
    rw [henc, ← hlen8, List.drop_left]
  have htake : c.encode.take 8 = leBytes64 c.hash := by
    rw [henc, ← hlen8, List.take_left]
  have hlen : ¬ c.encode.length < 8 := by
    rw [henc]
    simp only [List.length_append]
    omega
  simp only [decodePathwayBody, if_neg hlen, hdrop, htake, decodeVarInt64_encode,
    decodeVarInt64_encode_nil, leValue_leBytes64 c.hash hh]

/-- Claim C2: for every context with a 64-bit nonzero hash and non-negative
start times, decoding the bytes produced by `DataStreamsCtx.encode` (8-byte
little-endian hash, then varint pathway start in ms, then varint edge start
in ms) succeeds and yields a context with the identical hash and with both
start times reproduced to millisecond precision (the decoded value is at
most the original and less than 1 ms below it). -/
theorem decode_encode_roundtrip (c : DataStreamsCtx)
    (hh : c.hash < 2 ^ 64) (_hnz : c.hash ≠ 0)
    (hp : 0 ≤ c.pathway_start_sec) (he : 0 ≤ c.current_edge_start_sec) (now_sec : ℚ) :
    ∃ c', decodePathway c.service c.env now_sec (.bytes c.encode) = .ok c' ∧
      c'.hash = c.hash ∧
      0 ≤ c.pathway_start_sec - c'.pathway_start_sec ∧
      c.pathway_start_sec - c'.pathway_start_sec < 1 / 1000 ∧
      0 ≤ c.current_edge_start_sec - c'.current_edge_start_sec ∧
      c.current_edge_start_sec - c'.current_edge_start_sec < 1 / 1000 := by
  refine ⟨mkCtx c.service c.env c.hash
    (((pyInt (c.pathway_start_sec * 1000)).toNat : ℚ) / 1000)
    (((pyInt (c.current_edge_start_sec * 1000)).toNat : ℚ) / 1000), ?_, rfl, ?_, ?_, ?_, ?_⟩
  · rw [decodePathway, decodePathwayBody_encode c hh]
  · exact (msRound _ hp).1
  · exact (msRound _ hp).2
  · exact (msRound _ he).1
  · exact (msRound _ he).2

/-- Witness for C2 at a concrete context: hash 42, pathway start 3/2 s, edge
start 2 s. -/
theorem decode_encode_roundtrip_witness :
    ∃ c', decodePathway "s" "e" 0
        (.bytes (DataStreamsCtx.mk "s" "e" 42 (3 / 2) 2 "" 0 2).encode) = .ok c' ∧
      c'.hash = 42 ∧
      0 ≤ (3 / 2 : ℚ) - c'.pathway_start_sec ∧
      (3 / 2 : ℚ) - c'.pathway_start_sec < 1 / 1000 ∧
      0 ≤ (2 : ℚ) - c'.current_edge_start_sec ∧
      (2 : ℚ) - c'.current_edge_start_sec < 1 / 1000 :=
  decode_encode_roundtrip ⟨"s", "e", 42, 3 / 2, 2, "", 0, 2⟩
    (by norm_num) (by norm_num) (by norm_num) (by norm_num) 0

/-- Counterexample to claim C3 as stated: `decode_pathway` on the empty byte
string — a truncated buffer of fewer than 8 bytes — does not fall back to
`new_pathway()`: `struct.unpack("<Q", data[:8])` raises `struct.error`,
which the handler `except (EOFError, TypeError)` does not catch, so the
exception reaches the caller. -/
theorem decode_never_raises_counterexample :
    decodePathway "svc" "env" 0 (.bytes []) = .error .structError := rfl

/-- Claim C3 amended: for every input byte string of at least 8 bytes,
decoding returns a `PathwayContext` and never raises (malformed or truncated
varints raise `EOFError`, which is caught and replaced by a fresh
`new_pathway()` context); but a buffer of fewer than 8 bytes raises
`struct.error` to the caller, and a not-base64 string given to the base64
decoder (here the single byte `"A"`) raises `binascii.Error` to the
caller. -/
lemma decodePathwayBody_ok_or_eof (service env : String) (data : List Nat)
    (hlen : 8 ≤ data.length) :
    decodePathwayBody service env (.bytes data) = .error .eofError ∨
      ∃ c, decodePathwayBody service env (.bytes data) = .ok c := by
  rw [decodePathwayBody, if_neg (by omega)]
  split
  · left
    rfl
  · split
    · left
      rfl
    · right
      exact ⟨_, rfl⟩

theorem decode_raises_only_on_short_buffer (service env : String) (now_sec : ℚ)
    (data : List Nat) :
    (8 ≤ data.length → ∃ c, decodePathway service env now_sec (.bytes data) = .ok c) ∧
    (data.length < 8 → decodePathway service env now_sec (.bytes data) = .error .structError) ∧
    decodePathwayB64 service env now_sec (.bytes [65]) = .error .binasciiError := by
  refine ⟨?_, ?_, ?_⟩
  · intro hlen
    rcases decodePathwayBody_ok_or_eof service env data hlen with h | ⟨c, h⟩
    · exact ⟨newPathway service env now_sec, by rw [decodePathway, h]; rfl⟩
    · exact ⟨c, by rw [decodePathway, h]⟩
  · intro hlen
    rw [decodePathway, decodePathwayBody]
    rw [if_pos hlen]
    rfl
  · rfl

/-- Witness for the amended C3: an 8-byte buffer decodes without raising
(its empty varint tail falls back to a fresh pathway), while a 3-byte buffer
raises `struct.error`. -/
theorem decode_raises_only_on_short_buffer_witness :
    (∃ c, decodePathway "s" "e" 0 (.bytes [0, 0, 0, 0, 0, 0, 0, 0]) = .ok c) ∧
      decodePathway "s" "e" 0 (.bytes [1, 2, 3]) = .error .structError :=
  ⟨(decode_raises_only_on_short_buffer "s" "e" 0 [0, 0, 0, 0, 0, 0, 0, 0]).1 (by decide),
    (decode_raises_only_on_short_buffer "s" "e" 0 [1, 2, 3]).2.1 (by decide)⟩

/-- Lookup in a Python dict, modelled as an insertion-ordered association
list with unique keys. -/
def dictGet {κ β : Type} [DecidableEq κ] : List (κ × β) → κ → Option β
  | [], _ => none
  | (k', v) :: rest, k => if k = k' then some v else dictGet rest k

/-- Python `d[k] = v`: replace the value in place, or append a new key at
the end. -/
def dictSet {κ β : Type} [DecidableEq κ] : List (κ × β) → κ → β → List (κ × β)
  | [], k, v => [(k, v)]
  | (k', v') :: rest, k, v => if k = k' then (k, v) :: rest else (k', v') :: dictSet rest k v

/-- Python `del d[k]`. -/
def dictDel {κ β : Type} [DecidableEq κ] (m : List (κ × β)) (k : κ) : List (κ × β) :=
  m.filter fun p => decide (p.1 ≠ k)

/-- processor.py:59. -/
def PROPAGATION_KEY : String := "dd-pathway-ctx"

/-- processor.py:60. -/
def PROPAGATION_KEY_BASE_64 : String := "dd-pathway-ctx-base64"

/-- `DsmPathwayCodec.encode` (processor.py:509-514).  The embedded context
is always a truthy `DataStreamsCtx` instance, so the guard
`not isinstance(ctx, DataStreamsCtx) or not ctx or not ctx.hash` reduces to
`ctx.hash == 0`. -/
def DsmPathwayCodec.encode (ctx : DataStreamsCtx) (carrier : List (String × PyVal)) :
    List (String × PyVal) :=
  if ctx.hash = 0 then carrier
  else dictSet carrier PROPAGATION_KEY_BASE_64 (.str ctx.encode_b64)

/-- `DsmPathwayCodec.decode` (processor.py:516-538).  `decode_pathway_b64`
on the base64 key is not wrapped in any handler, so its exceptions
propagate; the base64 retry on the legacy key is wrapped in
`except Exception`, turning failures into a fresh pathway; `decode_pathway`
on the legacy key is unwrapped, so `struct.error` propagates. -/
def DsmPathwayCodec.decode (service env : String) (now_sec : ℚ)
    (carrier : List (String × PyVal)) : Except PyErr DataStreamsCtx :=
  if carrier = [] then .ok (newPathway service env now_sec)
  else
    match dictGet carrier PROPAGATION_KEY_BASE_64 with
    | some v => decodePathwayB64 service env now_sec v
    | none =>
      match dictGet carrier PROPAGATION_KEY with
      | some v =>
        match decodePathway service env now_sec v with
        | .error e => .error e
        | .ok ctx =>
          if ctx.hash = 0 then
            match decodePathwayB64 service env now_sec v with
            | .ok ctx2 => .ok ctx2
            | .error _ => .ok (newPathway service env now_sec)
          else .ok ctx
      | none => .ok (newPathway service env now_sec)

lemma dictGet_isSome_ne_nil {κ β : Type} [DecidableEq κ] {m : List (κ × β)} {k : κ} {v : β}
    (h : dictGet m k = some v) : m ≠ [] := by
  intro he
  subst he
  simp [dictGet] at h

/-- Claim C6: `DsmPathwayCodec.encode` on a context with hash 0 writes
nothing — the carrier is returned exactly unchanged, and in particular a
carrier without the propagation key stays without it. -/
theorem codec_encode_zero_hash_noop (ctx : DataStreamsCtx)
    (carrier : List (String × PyVal)) (hz : ctx.hash = 0) :
    DsmPathwayCodec.encode ctx carrier = carrier ∧
      (dictGet carrier PROPAGATION_KEY_BASE_64 = none →
        dictGet (DsmPathwayCodec.encode ctx carrier) PROPAGATION_KEY_BASE_64 = none) := by
  constructor
  · rw [DsmPathwayCodec.encode, if_pos hz]
  · intro habs
    rw [DsmPathwayCodec.encode, if_pos hz]
    exact habs

/-- Witness for C6: a fresh pathway (hash 0) leaves the empty carrier
empty. -/
theorem codec_encode_zero_hash_noop_witness :
    DsmPathwayCodec.encode (newPathway "s" "e" 7) [] = [] ∧
      (dictGet ([] : List (String × PyVal)) PROPAGATION_KEY_BASE_64 = none →
        dictGet (DsmPathwayCodec.encode (newPathway "s" "e" 7) []) PROPAGATION_KEY_BASE_64 = none) :=
  codec_encode_zero_hash_noop (newPathway "s" "e" 7) [] rfl

/-- Counterexample to claim C5 as stated: the carrier holding only the
legacy key with an empty `bytes` value — a value that certainly does not
decode as raw binary — does not make `decode` fall back to base64 and a
fresh pathway: the unguarded `decode_pathway` call raises `struct.error`
through `DsmPathwayCodec.decode` to the caller. -/
theorem codec_decode_legacy_fallback_counterexample :
    DsmPathwayCodec.decode "s" "e" 0 [(PROPAGATION_KEY, .bytes [])] = .error .structError := by
  rfl

/-- Claim C5 amended: `DsmPathwayCodec.decode` prefers the base64 key
`dd-pathway-ctx-base64` over the legacy key `dd-pathway-ctx`; when only the
legacy key is present and its value decodes as raw binary to a context with
hash 0 (which includes every `str` value, whose `TypeError` the raw decoder
catches), decode attempts to base64-decode the legacy value before giving
up and returning a fresh pathway — but a legacy `bytes` value shorter than
8 bytes instead raises `struct.error` to the caller; an empty or absent
carrier yields a fresh pathway. -/
theorem codec_decode_precedence_and_fallback (service env : String) (now_sec : ℚ)
    (carrier : List (String × PyVal)) :
    (∀ v, dictGet carrier PROPAGATION_KEY_BASE_64 = some v →
      DsmPathwayCodec.decode service env now_sec carrier =
        decodePathwayB64 service env now_sec v) ∧
    (∀ v ctx0, dictGet carrier PROPAGATION_KEY_BASE_64 = none →
      dictGet carrier PROPAGATION_KEY = some v →
      decodePathway service env now_sec v = .ok ctx0 → ctx0.hash = 0 →
      ((∀ c2, decodePathwayB64 service env now_sec v = .ok c2 →
          DsmPathwayCodec.decode service env now_sec carrier = .ok c2) ∧
        (∀ e, decodePathwayB64 service env now_sec v = .error e →
          DsmPathwayCodec.decode service env now_sec carrier =
            .ok (newPathway service env now_sec)))) ∧
    DsmPathwayCodec.decode service env now_sec [] = .ok (newPathway service env now_sec) ∧
    (dictGet carrier PROPAGATION_KEY_BASE_64 = none →
      dictGet carrier PROPAGATION_KEY = none →
      DsmPathwayCodec.decode service env now_sec carrier =
        .ok (newPathway service env now_sec)) := by
  refine ⟨?_, ?_, rfl, ?_⟩
  · intro v hv
    rw [DsmPathwayCodec.decode, if_neg (dictGet_isSome_ne_nil hv), hv]
  · intro v ctx0 hb64 hleg hparse hzero
    constructor
    · intro c2 hok
      simp only [DsmPathwayCodec.decode, if_neg (dictGet_isSome_ne_nil hleg), hb64, hleg,
        hparse, hzero, eq_self_iff_true, if_true, hok]
    · intro e herr
      simp only [DsmPathwayCodec.decode, if_neg (dictGet_isSome_ne_nil hleg), hb64, hleg,
        hparse, hzero, eq_self_iff_true, if_true, herr]
  · intro hb64 hleg
    by_cases hc : carrier = []
    · rw [DsmPathwayCodec.decode, if_pos hc]
    · rw [DsmPathwayCodec.decode, if_neg hc, hb64, hleg]

/-- Witness for the amended C5 at concrete carriers: the base64 key wins
when both keys are present, and a legacy `str` value that is not raw binary
falls back through base64 to a fresh pathway. -/
theorem codec_decode_precedence_and_fallback_witness :
    DsmPathwayCodec.decode "s" "e" 0
        [(PROPAGATION_KEY, .bytes [1, 2, 3]), (PROPAGATION_KEY_BASE_64, .str "")] =
      decodePathwayB64 "s" "e" 0 (.str "") ∧
    DsmPathwayCodec.decode "s" "e" 0 [(PROPAGATION_KEY, .str "A")] =
      .ok (newPathway "s" "e" 0) :=
  ⟨(codec_decode_precedence_and_fallback "s" "e" 0
      [(PROPAGATION_KEY, .bytes [1, 2, 3]), (PROPAGATION_KEY_BASE_64, .str "")]).1
      (.str "") (by decide),
    ((codec_decode_precedence_and_fallback "s" "e" 0 [(PROPAGATION_KEY, .str "A")]).2.1
      (.str "A") (newPathway "s" "e" 0) (by decide) (by decide) rfl rfl).2
      .binasciiError rfl⟩

/-- Insert a string into a sorted list, before the first element it does not
exceed. -/
def insertSorted (s : String) : List String → List String
  | [] => [s]
  | t :: rest => if s ≤ t then s :: t :: rest else t :: insertSorted s rest

/-- Python `sorted(tags)`: ascending lexicographic (code-point) order,
stable. -/
def pySorted (l : List String) : List String := l.foldr insertSorted []

/-- Python `t.startswith(p)`: the character sequence of `p` is a prefix of
that of `t` (defined over character lists so concrete instances evaluate). -/
def pyStartsWith (t p : String) : Bool := p.data.isPrefixOf t.data

/-- The direction extraction loop of `set_checkpoint` (processor.py:464-468):
the first tag starting with `"direction:"`, or the empty string. -/
def extractDirection (tags : List String) : String :=
  (tags.find? fun t => pyStartsWith t "direction:").getD ""

/-- Everything `DataStreamsCtx.set_checkpoint` hands to
`DataStreamsProcessor.on_checkpoint_creation` (processor.py:497-499). -/
structure CheckpointRecord where
  hash_value : Nat
  parent_hash : Nat
  edge_tags : List String
  now_sec : ℚ
  edge_latency_sec : ℚ
  full_pathway_latency_sec : ℚ
  payload_size : Nat
deriving DecidableEq

/-- Python truthiness of an optional float argument: `None` and `0.0` are
falsy. -/
def pyTruthy : Option ℚ → Bool
  | none => false
  | some v => decide (v ≠ 0)

/-- `DataStreamsCtx.set_checkpoint` (processor.py:444-499), as a pure
function from the context to the updated context plus the record passed to
`on_checkpoint_creation`.  `now_sec` is the resolved time (the source
substitutes `time.time()` for a falsy argument before this point) and the
`span` tagging side effect is not modelled. -/
def DataStreamsCtx.set_checkpoint (c : DataStreamsCtx) (tags : List String) (now_sec : ℚ)
    (edge_start_sec_override pathway_start_sec_override : Option ℚ) (payload_size : Nat) :
    DataStreamsCtx × CheckpointRecord :=
  let tags := pySorted tags
  let direction := extractDirection tags
  let c1 :=
    if direction = c.previous_direction then
      if c.closest_opposite_direction_hash = 0 then
        { c with hash := c.closest_opposite_direction_hash,
                 current_edge_start_sec := now_sec, pathway_start_sec := now_sec }
      else
        { c with hash := c.closest_opposite_direction_hash,
                 current_edge_start_sec := c.closest_opposite_direction_edge_start }
    else
      { c with previous_direction := direction, closest_opposite_direction_hash := c.hash,
               closest_opposite_direction_edge_start := now_sec }
  let c2 := if pyTruthy edge_start_sec_override then
      { c1 with current_edge_start_sec := edge_start_sec_override.getD 0 }
    else c1
  let c3 := if pyTruthy pathway_start_sec_override then
      { c2 with pathway_start_sec := pathway_start_sec_override.getD 0 }
    else c2
  let parent_hash := c3.hash
  let hash_value := computeHash c3.service c3.env tags parent_hash
  let edge_latency_sec := max (now_sec - c3.current_edge_start_sec) 0
  let pathway_latency_sec := max (now_sec - c3.pathway_start_sec) 0
  ({ c3 with hash := hash_value, current_edge_start_sec := now_sec },
    ⟨hash_value, parent_hash, tags, now_sec, edge_latency_sec, pathway_latency_sec, payload_size⟩)

/-- Claim C4: a `set_checkpoint` call whose extracted direction equals
`previous_direction` reuses `closest_opposite_direction_hash` as the parent
hash, and when that reused hash is 0 both `pathway_start_sec` and
`current_edge_start_sec` are reset to the call's now; in particular, on a
fresh pathway two consecutive `direction:out` checkpoints compute the second
hash with parent hash 0 and leave `pathway_start_sec` at the second call's
now. -/
theorem set_checkpoint_loop_detection :
    (∀ (c : DataStreamsCtx) (tags : List String) (now_sec : ℚ) (ps : Nat),
      extractDirection (pySorted tags) = c.previous_direction →
        (c.set_checkpoint tags now_sec none none ps).2.parent_hash =
            c.closest_opposite_direction_hash ∧
          (c.closest_opposite_direction_hash = 0 →
            (c.set_checkpoint tags now_sec none none ps).1.pathway_start_sec = now_sec ∧
              (c.set_checkpoint tags now_sec none none ps).1.current_edge_start_sec = now_sec)) ∧
    (∀ (service env : String) (now0 now1 now2 : ℚ) (ps1 ps2 : Nat),
      (((newPathway service env now0).set_checkpoint ["direction:out"] now1 none none
            ps1).1.set_checkpoint ["direction:out"] now2 none none ps2).2.parent_hash = 0 ∧
        (((newPathway service env now0).set_checkpoint ["direction:out"] now1 none none
            ps1).1.set_checkpoint ["direction:out"] now2 none none ps2).1.pathway_start_sec =
          now2) := by
  constructor
  · intro c tags now_sec ps hdir
    by_cases hz : c.closest_opposite_direction_hash = 0
    · simp [DataStreamsCtx.set_checkpoint, hdir, pyTruthy, hz]
    · simp [DataStreamsCtx.set_checkpoint, hdir, pyTruthy, hz]
  · intro service env now0 now1 now2 ps1 ps2
    have hsort : pySorted ["direction:out"] = ["direction:out"] := rfl
    have hdir : extractDirection ["direction:out"] = "direction:out" := rfl
    simp [DataStreamsCtx.set_checkpoint, hsort, hdir, pyTruthy, newPathway, mkCtx]

/-- Witness for C4: a context whose previous direction is `direction:out`
and whose closest-opposite hash is 0, checkpointed again with
`direction:out`. -/
theorem set_checkpoint_loop_detection_witness :
    ((DataStreamsCtx.mk "s" "e" 5 1 1 "direction:out" 0 1).set_checkpoint
        ["direction:out"] 9 none none 0).2.parent_hash = 0 ∧
      (0 = 0 →
        ((DataStreamsCtx.mk "s" "e" 5 1 1 "direction:out" 0 1).set_checkpoint
            ["direction:out"] 9 none none 0).1.pathway_start_sec = 9 ∧
          ((DataStreamsCtx.mk "s" "e" 5 1 1 "direction:out" 0 1).set_checkpoint
            ["direction:out"] 9 none none 0).1.current_edge_start_sec = 9) :=
  set_checkpoint_loop_detection.1 (DataStreamsCtx.mk "s" "e" 5 1 1 "direction:out" 0 1)
    ["direction:out"] 9 0 (by decide)

/-- `SumCount` (processor.py:73-92): running sum (a Python float, exact on
the integer payload sizes recorded here) and count. -/
structure SumCount where
  s : ℚ
  count : Nat
deriving DecidableEq

/-- `SumCount.add` (processor.py:82-84). -/
def SumCount.add (sc : SumCount) (value : ℚ) : SumCount := ⟨sc.s + value, sc.count + 1⟩

/-- `PathwayStats` (processor.py:95-103).  The `DDSketch` latency sketches
are external collaborators with an `add(value)` operation; each is modelled
by the list of values added to it, in order. -/
structure PathwayStats where
  full_pathway_latency : List ℚ
  edge_latency : List ℚ
  payload_size : SumCount
deriving DecidableEq

/-- A freshly constructed `PathwayStats()`. -/
def emptyPathwayStats : PathwayStats := ⟨[], [], ⟨0, 0⟩⟩

/-- `PathwayAggrKey` (processor.py:66-70): joined edge tags, hash, parent
hash. -/
abbrev PathwayAggrKey := String × Nat × Nat

/-- `PartitionKey` (processor.py:106). -/
abbrev PartitionKey := String × Int

/-- `ConsumerPartitionKey` (processor.py:107). -/
abbrev ConsumerPartitionKey := String × String × Int

/-- `Bucket` (processor.py:108-115). -/
structure Bucket where
  pathway_stats : List (PathwayAggrKey × PathwayStats)
  latest_produce_offsets : List (PartitionKey × Int)
  latest_commit_offsets : List (ConsumerPartitionKey × Int)
deriving DecidableEq

/-- The defaultdict's fresh bucket (processor.py:132-134). -/
def emptyBucket : Bucket := ⟨[], [], []⟩

/-- The state of a `DataStreamsProcessor` that the embedded operations
read or write.  The transport, retry and scheduling machinery are external
collaborators outside every claim. -/
structure ProcState where
  enabled : Bool
  bucket_size_ns : Int
  buckets : List (Int × Bucket)
  current_context : Option DataStreamsCtx
  service : String
  env : String
deriving DecidableEq

/-- The bucket key `now_ns - (now_ns % bucket_size_ns)` with
`now_ns = int(now_sec * 1e9)` (processor.py:178,182); `Int.emod` agrees with
Python `%` on a positive modulus. -/
def bucketTimeNs (bucket_size_ns : Int) (now_sec : ℚ) : Int :=
  let now_ns := pyInt (now_sec * 1000000000)
  now_ns - now_ns % bucket_size_ns

/-- `DataStreamsProcessor.on_checkpoint_creation` (processor.py:156-188). -/
def onCheckpointCreation (st : ProcState) (hash_value parent_hash : Nat)
    (edge_tags : List String) (now_sec edge_latency_sec full_pathway_latency_sec : ℚ)
    (payload_size : Nat) : ProcState :=
  if !st.enabled then st
  else
    let bucket_time_ns := bucketTimeNs st.bucket_size_ns now_sec
    let aggr_key : PathwayAggrKey := (String.intercalate "," edge_tags, hash_value, parent_hash)
    let bucket := (dictGet st.buckets bucket_time_ns).getD emptyBucket
    let stats := (dictGet bucket.pathway_stats aggr_key).getD emptyPathwayStats
    let stats' : PathwayStats :=
      ⟨stats.full_pathway_latency ++ [full_pathway_latency_sec],
        stats.edge_latency ++ [edge_latency_sec],
        stats.payload_size.add (payload_size : ℚ)⟩
    let bucket' := { bucket with pathway_stats := dictSet bucket.pathway_stats aggr_key stats' }
    { st with buckets := dictSet st.buckets bucket_time_ns bucket' }

/-- `DataStreamsProcessor.track_kafka_produce` (processor.py:190-197). -/
def trackKafkaProduce (st : ProcState) (topic : String) (partition offset : Int)
    (now_sec : ℚ) : ProcState :=
  let bucket_time_ns := bucketTimeNs st.bucket_size_ns now_sec
  let key : PartitionKey := (topic, partition)
  let bucket := (dictGet st.buckets bucket_time_ns).getD emptyBucket
  let cur := (dictGet bucket.latest_produce_offsets key).getD 0
  let bucket' := { bucket with
    latest_produce_offsets := dictSet bucket.latest_produce_offsets key (max offset cur) }
  { st with buckets := dictSet st.buckets bucket_time_ns bucket' }

/-- `DataStreamsProcessor.track_kafka_commit` (processor.py:199-206). -/
def trackKafkaCommit (st : ProcState) (group topic : String) (partition offset : Int)
    (now_sec : ℚ) : ProcState :=
  let bucket_time_ns := bucketTimeNs st.bucket_size_ns now_sec
  let key : ConsumerPartitionKey := (group, topic, partition)
  let bucket := (dictGet st.buckets bucket_time_ns).getD emptyBucket
  let cur := (dictGet bucket.latest_commit_offsets key).getD 0
  let bucket' := { bucket with
    latest_commit_offsets := dictSet bucket.latest_commit_offsets key (max offset cur) }
  { st with buckets := dictSet st.buckets bucket_time_ns bucket' }

/-- One serialized pathway-stats entry (processor.py:220-227); the sketch
`to_proto()` summaries are represented by the sketches' sample lists. -/
structure SerializedStats where
  EdgeTags : List String
  Hash : Nat
  ParentHash : Nat
  PathwayLatency : List ℚ
  EdgeLatency : List ℚ
deriving DecidableEq

/-- One backlog entry (processor.py:228-250). -/
structure Backlog where
  Tags : List String
  Value : Int
deriving DecidableEq

/-- One serialized bucket (processor.py:251-258). -/
structure SerializedBucket where
  Start : Int
  Duration : Int
  Stats : List SerializedStats
  Backlogs : List Backlog
deriving DecidableEq

/-- Serialization of one pathway-stats entry (processor.py:218-227). -/
def serializeStatsEntry (p : PathwayAggrKey × PathwayStats) : SerializedStats :=
  ⟨p.1.1.splitOn ",", p.1.2.1, p.1.2.2, p.2.full_pathway_latency, p.2.edge_latency⟩

/-- A commit backlog entry (processor.py:228-239). -/
def commitBacklog (p : ConsumerPartitionKey × Int) : Backlog :=
  ⟨["type:kafka_commit", "consumer_group:" ++ p.1.1, "topic:" ++ p.1.2.1,
    "partition:" ++ toString p.1.2.2], p.2⟩

/-- A produce backlog entry (processor.py:240-250). -/
def produceBacklog (p : PartitionKey × Int) : Backlog :=
  ⟨["type:kafka_produce", "topic:" ++ p.1.1, "partition:" ++ toString p.1.2], p.2⟩

/-- Serialization of one bucket (processor.py:213-258): its stats entries in
map order, then commit backlogs, then produce backlogs. -/
def serializeBucket (bucket_size_ns bucket_time_ns : Int) (b : Bucket) : SerializedBucket :=
  ⟨bucket_time_ns, bucket_size_ns,
    b.pathway_stats.map serializeStatsEntry,
    b.latest_commit_offsets.map commitBacklog ++ b.latest_produce_offsets.map produceBacklog⟩

/-- `DataStreamsProcessor._serialize_buckets` (processor.py:208-264): build
one snapshot per bucket in map order while collecting the serialized keys,
then delete every collected key from the bucket map. -/
def serializeBuckets (st : ProcState) : List SerializedBucket × ProcState :=
  let serialized_buckets := st.buckets.map fun p => serializeBucket st.bucket_size_ns p.1 p.2
  let serialized_bucket_keys := st.buckets.map fun p => p.1
  let remaining := serialized_bucket_keys.foldl (fun m k => dictDel m k) st.buckets
  (serialized_buckets, { st with buckets := remaining })

lemma foldl_dictDel_eq_filter {κ β : Type} [DecidableEq κ] (ks : List κ) (m : List (κ × β)) :
    ks.foldl (fun m k => dictDel m k) m = m.filter fun p => decide (p.1 ∉ ks) := by
  induction ks generalizing m with
  | nil => simp
  | cons k ks ih =>
    rw [List.foldl_cons, ih, dictDel, List.filter_filter]
    apply List.filter_congr
    intro p _
    simp [List.mem_cons, not_or, Bool.and_comm]

/-- Claim C9: after `_serialize_buckets` completes, the bucket map is empty,
and the returned snapshots cover exactly the buckets present when it
started: one snapshot per bucket, in order, each carrying every stats entry
and every backlog of its bucket — all-or-nothing drain. -/
theorem serialize_buckets_drains_all (st : ProcState) :
    (serializeBuckets st).2.buckets = [] ∧
    ((serializeBuckets st).1.map fun sb => sb.Start) = st.buckets.map (fun p => p.1) ∧
    ∀ p ∈ st.buckets,
      serializeBucket st.bucket_size_ns p.1 p.2 ∈ (serializeBuckets st).1 ∧
      (serializeBucket st.bucket_size_ns p.1 p.2).Stats.length = p.2.pathway_stats.length ∧
      (serializeBucket st.bucket_size_ns p.1 p.2).Backlogs.length =
        p.2.latest_commit_offsets.length + p.2.latest_produce_offsets.length := by
  refine ⟨?_, ?_, ?_⟩
  · show (List.map (fun p => p.1) st.buckets).foldl (fun m k => dictDel m k) st.buckets = []
    rw [foldl_dictDel_eq_filter]
    apply List.filter_eq_nil_iff.mpr
    intro p hp
    simp only [decide_eq_true_eq, not_not]
    exact List.mem_map_of_mem _ hp
  · show ((st.buckets.map fun p => serializeBucket st.bucket_size_ns p.1 p.2).map
        fun sb => sb.Start) = st.buckets.map fun p => p.1
    rw [List.map_map]
    rfl
  · intro p hp
    refine ⟨List.mem_map_of_mem _ hp, ?_, ?_⟩
    · simp [serializeBucket]
    · simp [serializeBucket]

/-- A one-bucket processor state used to witness the drain claim. -/
def drainWitnessState : ProcState :=
  ⟨true, 10, [(0, ⟨[(("t", 1, 2), ⟨[1], [1], ⟨3, 1⟩⟩)], [], [(("g", "t", 1), 5)]⟩)],
    none, "s", "e"⟩

/-- Witness for C9 at a concrete one-bucket state: the map empties and the
single bucket is fully serialized. -/
theorem serialize_buckets_drains_all_witness :
    (serializeBuckets drainWitnessState).2.buckets = [] ∧
    ((serializeBuckets drainWitnessState).1.map fun sb => sb.Start) =
      drainWitnessState.buckets.map (fun p => p.1) ∧
    ∀ p ∈ drainWitnessState.buckets,
      serializeBucket drainWitnessState.bucket_size_ns p.1 p.2 ∈
        (serializeBuckets drainWitnessState).1 ∧
      (serializeBucket drainWitnessState.bucket_size_ns p.1 p.2).Stats.length =
        p.2.pathway_stats.length ∧
      (serializeBucket drainWitnessState.bucket_size_ns p.1 p.2).Backlogs.length =
        p.2.latest_commit_offsets.length + p.2.latest_produce_offsets.length :=
  serialize_buckets_drains_all drainWitnessState

/-- Claim C7: two `on_checkpoint_creation` calls with the same aggregation
key whose timestamps align to the same bucket start
(`now_ns - now_ns % bucket_size_ns`) land in one single bucket entry under
that key, and their stats merge: payload sum/count reaches count 2 with the
sum of both sizes, and both latency distributions receive both samples. -/
theorem on_checkpoint_same_bucket_merges (st : ProcState) (hash_value parent_hash : Nat)
    (edge_tags : List String) (t1 t2 el1 el2 pl1 pl2 : ℚ) (s1 s2 : Nat)
    (hen : st.enabled = true) (hemp : st.buckets = [])
    (hbt : bucketTimeNs st.bucket_size_ns t1 = bucketTimeNs st.bucket_size_ns t2) :
    ((onCheckpointCreation (onCheckpointCreation st hash_value parent_hash edge_tags t1 el1 pl1
          s1) hash_value parent_hash edge_tags t2 el2 pl2 s2).buckets.map fun p => p.1) =
      [bucketTimeNs st.bucket_size_ns t1] ∧
    (dictGet (onCheckpointCreation (onCheckpointCreation st hash_value parent_hash edge_tags t1
          el1 pl1 s1) hash_value parent_hash edge_tags t2 el2 pl2 s2).buckets
        (bucketTimeNs st.bucket_size_ns t1)).bind
      (fun b => dictGet b.pathway_stats
        (String.intercalate "," edge_tags, hash_value, parent_hash)) =
      some ⟨[pl1, pl2], [el1, el2], ⟨(s1 : ℚ) + (s2 : ℚ), 2⟩⟩ := by
  constructor <;>
    simp [onCheckpointCreation, hen, hemp, ← hbt, dictGet, dictSet, emptyBucket,
      emptyPathwayStats, SumCount.add]

/-- Witness for C7: bucket size 10 s (in ns), checkpoints at 5 s and 7 s. -/
theorem on_checkpoint_same_bucket_merges_witness :
    ((onCheckpointCreation (onCheckpointCreation ⟨true, 10000000000, [], none, "s", "e"⟩ 11 7
          ["direction:out", "topic:t"] 5 (1 / 2) 1 10) 11 7 ["direction:out", "topic:t"] 7
          (3 / 2) 2 20).buckets.map fun p => p.1) = [bucketTimeNs 10000000000 5] ∧
    (dictGet (onCheckpointCreation (onCheckpointCreation ⟨true, 10000000000, [], none, "s", "e"⟩
          11 7 ["direction:out", "topic:t"] 5 (1 / 2) 1 10) 11 7 ["direction:out", "topic:t"] 7
          (3 / 2) 2 20).buckets (bucketTimeNs 10000000000 5)).bind
      (fun b => dictGet b.pathway_stats
        (String.intercalate "," ["direction:out", "topic:t"], 11, 7)) =
      some ⟨[1, 2], [1 / 2, 3 / 2], ⟨(10 : ℚ) + (20 : ℚ), 2⟩⟩ :=
  on_checkpoint_same_bucket_merges ⟨true, 10000000000, [], none, "s", "e"⟩ 11 7
    ["direction:out", "topic:t"] 5 7 (1 / 2) (3 / 2) 1 2 10 20 rfl rfl
    (by norm_num [bucketTimeNs, pyInt])

lemma dictGet_dictSet_self {κ β : Type} [DecidableEq κ] (m : List (κ × β)) (k : κ) (v : β) :
    dictGet (dictSet m k v) k = some v := by
  induction m with
  | nil => simp [dictSet, dictGet]
  | cons p rest ih =>
    obtain ⟨k', v'⟩ := p
    by_cases h : k = k'
    · simp [dictSet, dictGet, h]
    · simp [dictSet, dictGet, h, ih]

/-- The view of one produce offset slot. -/
def produceOffsetAt (st : ProcState) (bt : Int) (key : PartitionKey) : Option Int :=
  (dictGet st.buckets bt).bind fun b => dictGet b.latest_produce_offsets key

/-- The view of one commit offset slot. -/
def commitOffsetAt (st : ProcState) (bt : Int) (key : ConsumerPartitionKey) : Option Int :=
  (dictGet st.buckets bt).bind fun b => dictGet b.latest_commit_offsets key

lemma trackKafkaProduce_offset (st : ProcState) (topic : String) (partition offset : Int)
    (t : ℚ) :
    produceOffsetAt (trackKafkaProduce st topic partition offset t)
        (bucketTimeNs st.bucket_size_ns t) (topic, partition) =
      some (max offset
        ((produceOffsetAt st (bucketTimeNs st.bucket_size_ns t) (topic, partition)).getD 0)) := by
  rcases hb : dictGet st.buckets (bucketTimeNs st.bucket_size_ns t) with _ | b <;>
    simp [trackKafkaProduce, produceOffsetAt, hb, dictGet_dictSet_self, emptyBucket, dictGet]

lemma trackKafkaCommit_offset (st : ProcState) (group topic : String) (partition offset : Int)
    (t : ℚ) :
    commitOffsetAt (trackKafkaCommit st group topic partition offset t)
        (bucketTimeNs st.bucket_size_ns t) (group, topic, partition) =
      some (max offset
        ((commitOffsetAt st (bucketTimeNs st.bucket_size_ns t)
          (group, topic, partition)).getD 0)) := by
  rcases hb : dictGet st.buckets (bucketTimeNs st.bucket_size_ns t) with _ | b <;>
    simp [trackKafkaCommit, commitOffsetAt, hb, dictGet_dictSet_self, emptyBucket, dictGet]

/-- A sequence of `track_kafka_produce` calls for one partition key, one
call per (offset, time) pair. -/
def replayKafkaProduce (st : ProcState) (topic : String) (partition : Int)
    (l : List (Int × ℚ)) : ProcState :=
  l.foldl (fun s p => trackKafkaProduce s topic partition p.1 p.2) st

/-- A sequence of `track_kafka_commit` calls for one consumer-partition
key. -/
def replayKafkaCommit (st : ProcState) (group topic : String) (partition : Int)
    (l : List (Int × ℚ)) : ProcState :=
  l.foldl (fun s p => trackKafkaCommit s group topic partition p.1 p.2) st

lemma replayKafkaProduce_offset (topic : String) (partition : Int) (bt : Int) :
    ∀ (l : List (Int × ℚ)) (st : ProcState), l ≠ [] →
      (∀ p ∈ l, bucketTimeNs st.bucket_size_ns p.2 = bt) →
      produceOffsetAt (replayKafkaProduce st topic partition l) bt (topic, partition) =
        some (l.foldl (fun acc p => max p.1 acc)
          ((produceOffsetAt st bt (topic, partition)).getD 0)) := by
  intro l
  induction l with
  | nil => intro st h; exact absurd rfl h
  | cons p rest ih =>
    intro st _ hbt
    have hstep := trackKafkaProduce_offset st topic partition p.1 p.2
    rw [hbt p (List.mem_cons_self p rest)] at hstep
    cases rest with
    | nil => simpa [replayKafkaProduce] using hstep
    | cons q qs =>
      have hrest : ∀ r ∈ q :: qs, bucketTimeNs
          (trackKafkaProduce st topic partition p.1 p.2).bucket_size_ns r.2 = bt :=
        fun r hr => hbt r (List.mem_cons_of_mem p hr)
      have hih := ih (trackKafkaProduce st topic partition p.1 p.2)
        (List.cons_ne_nil q qs) hrest
      rw [replayKafkaProduce, List.foldl_cons, ← replayKafkaProduce, hih, hstep]
      simp

lemma replayKafkaCommit_offset (group topic : String) (partition : Int) (bt : Int) :
    ∀ (l : List (Int × ℚ)) (st : ProcState), l ≠ [] →
      (∀ p ∈ l, bucketTimeNs st.bucket_size_ns p.2 = bt) →
      commitOffsetAt (replayKafkaCommit st group topic partition l) bt
          (group, topic, partition) =
        some (l.foldl (fun acc p => max p.1 acc)
          ((commitOffsetAt st bt (group, topic, partition)).getD 0)) := by
  intro l
  induction l with
  | nil => intro st h; exact absurd rfl h
  | cons p rest ih =>
    intro st _ hbt
    have hstep := trackKafkaCommit_offset st group topic partition p.1 p.2
    rw [hbt p (List.mem_cons_self p rest)] at hstep
    cases rest with
    | nil => simpa [replayKafkaCommit] using hstep
    | cons q qs =>
      have hrest : ∀ r ∈ q :: qs, bucketTimeNs
          (trackKafkaCommit st group topic partition p.1 p.2).bucket_size_ns r.2 = bt :=
        fun r hr => hbt r (List.mem_cons_of_mem p hr)
      have hih := ih (trackKafkaCommit st group topic partition p.1 p.2)
        (List.cons_ne_nil q qs) hrest
      rw [replayKafkaCommit, List.foldl_cons, ← replayKafkaCommit, hih, hstep]
      simp

lemma foldl_max_ge (xs : List Int) : ∀ (a : Int), (∀ x ∈ xs, x ≤ xs.foldl (fun acc x => max x acc) a)
    ∧ a ≤ xs.foldl (fun acc x => max x acc) a := by
  induction xs with
  | nil => intro a; exact ⟨by simp, le_refl a⟩
  | cons x xs ih =>
    intro a
    refine ⟨?_, ?_⟩
    · intro y hy
      rcases List.mem_cons.mp hy with rfl | hy
      · exact le_trans (le_max_left y a) (ih (max y a)).2
      · exact (ih (max x a)).1 y hy
    · exact le_trans (le_max_right x a) (ih (max x a)).2

lemma foldl_max_mem (xs : List Int) : ∀ (a : Int),
    xs.foldl (fun acc x => max x acc) a = a ∨ xs.foldl (fun acc x => max x acc) a ∈ xs := by
  induction xs with
  | nil => intro a; exact Or.inl rfl
  | cons x xs ih =>
    intro a
    rcases ih (max x a) with h | h
    · rcases max_choice x a with hm | hm
      · right
        rw [List.foldl_cons, h, hm]
        exact List.mem_cons_self x xs
      · left
        rw [List.foldl_cons, h, hm]
    · right
      exact List.mem_cons_of_mem x h

/-- Claim C8: for every sequence of `track_kafka_produce` (resp.
`track_kafka_commit`) calls for the same partition (resp.
consumer-partition) key whose timestamps fall in the same bucket, the stored
offset after the sequence is the maximum of all non-negative offsets
recorded, regardless of delivery order. -/
theorem track_kafka_offsets_keep_max (st : ProcState) (group topic : String)
    (partition : Int) (bt : Int) (l : List (Int × ℚ)) (hemp : st.buckets = [])
    (hne : l ≠ []) (hbt : ∀ p ∈ l, bucketTimeNs st.bucket_size_ns p.2 = bt)
    (hnn : ∀ p ∈ l, 0 ≤ p.1) :
    (∃ M, produceOffsetAt (replayKafkaProduce st topic partition l) bt (topic, partition) =
        some M ∧ (∀ p ∈ l, p.1 ≤ M) ∧ M ∈ l.map fun p => p.1) ∧
    (∃ M, commitOffsetAt (replayKafkaCommit st group topic partition l) bt
        (group, topic, partition) = some M ∧ (∀ p ∈ l, p.1 ≤ M) ∧ M ∈ l.map fun p => p.1) := by
  have hd0p : (produceOffsetAt st bt (topic, partition)).getD 0 = 0 := by
    simp [produceOffsetAt, hemp, dictGet]
  have hd0c : (commitOffsetAt st bt (group, topic, partition)).getD 0 = 0 := by
    simp [commitOffsetAt, hemp, dictGet]
  have hfold : l.foldl (fun acc p => max p.1 acc) 0 =
      (l.map fun p => p.1).foldl (fun acc x => max x acc) 0 := by
    rw [List.foldl_map]
  have hle := (foldl_max_ge (l.map fun p => p.1) 0).1
  have hmem : (l.map fun p => p.1).foldl (fun acc x => max x acc) 0 ∈ l.map fun p => p.1 := by
    rcases foldl_max_mem (l.map fun p => p.1) 0 with h | h
    · rcases l with _ | ⟨p, rest⟩
      · exact absurd rfl hne
      · have hp0 : (0 : Int) ≤ p.1 := hnn p (List.mem_cons_self p rest)
        have hpM : p.1 ≤ ((p :: rest).map fun p => p.1).foldl (fun acc x => max x acc) 0 :=
          hle p.1 (by simp)
        rw [h] at hpM ⊢
        have : p.1 = 0 := le_antisymm hpM hp0
        simp [← this]
    · exact h
  refine ⟨⟨(l.map fun p => p.1).foldl (fun acc x => max x acc) 0, ?_, ?_, hmem⟩,
    ⟨(l.map fun p => p.1).foldl (fun acc x => max x acc) 0, ?_, ?_, hmem⟩⟩
  · rw [replayKafkaProduce_offset topic partition bt l st hne hbt, hd0p, hfold]
  · intro p hp
    exact hle p.1 (List.mem_map_of_mem _ hp)
  · rw [replayKafkaCommit_offset group topic partition bt l st hne hbt, hd0c, hfold]
  · intro p hp
    exact hle p.1 (List.mem_map_of_mem _ hp)

/-- Witness for C8: offsets 5 then 3 in the same bucket — the stored value
is a maximum that both offsets are below and that is one of the recorded
offsets (here 5). -/
theorem track_kafka_offsets_keep_max_witness :
    (∃ M, produceOffsetAt (replayKafkaProduce ⟨true, 10000000000, [], none, "s", "e"⟩ "t" 1
        [(5, 2), (3, 4)]) (bucketTimeNs 10000000000 2) ("t", 1) = some M ∧
      (∀ p ∈ [((5 : Int), (2 : ℚ)), (3, 4)], p.1 ≤ M) ∧
      M ∈ [((5 : Int), (2 : ℚ)), (3, 4)].map fun p => p.1) ∧
    (∃ M, commitOffsetAt (replayKafkaCommit ⟨true, 10000000000, [], none, "s", "e"⟩ "g" "t" 1
        [(5, 2), (3, 4)]) (bucketTimeNs 10000000000 2) ("g", "t", 1) = some M ∧
      (∀ p ∈ [((5 : Int), (2 : ℚ)), (3, 4)], p.1 ≤ M) ∧
      M ∈ [((5 : Int), (2 : ℚ)), (3, 4)].map fun p => p.1) :=
  track_kafka_offsets_keep_max ⟨true, 10000000000, [], none, "s", "e"⟩ "g" "t" 1
    (bucketTimeNs 10000000000 2) [(5, 2), (3, 4)] rfl (by decide)
    (by
      intro p hp
      rw [List.mem_cons, List.mem_singleton] at hp
      rcases hp with rfl | rfl <;> norm_num [bucketTimeNs, pyInt])
    (by decide)

/-- `DataStreamsProcessor.set_checkpoint` (processor.py:367-387) as a state
transformer.  `wall_now_sec` stands for the `time.time()` reading that
`new_pathway()` takes when no thread-local context exists yet; `now_sec` is
the resolved checkpoint time. -/
def processorSetCheckpoint (st : ProcState) (tags : List String) (now_sec wall_now_sec : ℚ)
    (payload_size : Nat) : ProcState × DataStreamsCtx × CheckpointRecord :=
  let ctx := match st.current_context with
    | some c => c
    | none => newPathway st.service st.env wall_now_sec
  let payload_size :=
    if tags.contains "direction:out" then
      payload_size + ctx.encode_b64.length + PROPAGATION_KEY_BASE_64.length
    else payload_size
  let r := ctx.set_checkpoint tags now_sec none none payload_size
  let st' := { st with current_context := some r.1 }
  (onCheckpointCreation st' r.2.hash_value r.2.parent_hash r.2.edge_tags r.2.now_sec
    r.2.edge_latency_sec r.2.full_pathway_latency_sec r.2.payload_size, r.1, r.2)

/-- Claim C10: a `DataStreamsProcessor.set_checkpoint` call whose tag list
contains `direction:out` records into the bucket a payload size equal to
the caller-supplied `payload_size` plus the length of the base64-encoded
wire form of the context as it was before the checkpoint plus the length of
the key name `dd-pathway-ctx-base64`; without `direction:out` the recorded
payload size is the caller-supplied value unchanged. -/
theorem set_checkpoint_payload_overhead (st : ProcState) (tags : List String)
    (now_sec wall_now_sec : ℚ) (ps : Nat) :
    (tags.contains "direction:out" = true →
      (processorSetCheckpoint st tags now_sec wall_now_sec ps).2.2.payload_size =
        ps + (match st.current_context with
          | some c => c
          | none => newPathway st.service st.env wall_now_sec).encode_b64.length +
          PROPAGATION_KEY_BASE_64.length) ∧
    (tags.contains "direction:out" = false →
      (processorSetCheckpoint st tags now_sec wall_now_sec ps).2.2.payload_size = ps) := by
  constructor
  · intro h
    simp only [processorSetCheckpoint, DataStreamsCtx.set_checkpoint, h, eq_self_iff_true,
      if_true]
  · intro h
    simp only [processorSetCheckpoint, DataStreamsCtx.set_checkpoint, h, Bool.false_eq_true,
      if_false]

/-- Witness for C10: a fresh-context producer checkpoint carries the header
overhead; a consumer checkpoint does not. -/
theorem set_checkpoint_payload_overhead_witness :
    (processorSetCheckpoint ⟨true, 10000000000, [], none, "s", "e"⟩ ["direction:out"] 5 2
        3).2.2.payload_size =
      3 + (newPathway "s" "e" 2).encode_b64.length + PROPAGATION_KEY_BASE_64.length ∧
    (processorSetCheckpoint ⟨true, 10000000000, [], none, "s", "e"⟩ ["direction:in"] 5 2
        3).2.2.payload_size = 3 :=
  ⟨(set_checkpoint_payload_overhead ⟨true, 10000000000, [], none, "s", "e"⟩ ["direction:out"]
      5 2 3).1 (by decide),
    (set_checkpoint_payload_overhead ⟨true, 10000000000, [], none, "s", "e"⟩ ["direction:in"]
      5 2 3).2 (by decide)⟩

end DSM
